import Mathlib

/-
Verification of the ctrader-relay protocol bridge.

The repository is a Node.js relay that accepts a `/sync` request, opens a
connection to the cTrader JSON API, performs app/account authentication,
fetches the symbol list, pages through the deal history, optionally fetches
symbol details (lot sizes), and returns the aggregate.

Below is a shallow embedding of the parts of the code the claims are about:
  * `processMsgs`   — the dispatch logic of the `waitFor` correlator handler
                      (src/index.js lines 60-81, src/unnamed/part_000 lines 100-120);
  * `decodeLoop`    — the length-prefixed frame reader
                      (src/unnamed/part_000 `createFrameReader`, lines 69-90);
  * `dealLoopAux`   — the paginated deal fetch loop of `syncAccount`
                      (src/index.js lines 117-131); the loop is fuel-indexed by
                      `40 - pages`, mirroring the `while (pages < 40)` guard;
  * `buildSymbols`, `mergeDetails`, `detailStep` — the symbol-table and
                      lot-size-table construction (src/index.js lines 101-158);
  * `syncAccount`   — the whole sequencer over an oracle `Env` giving the
                      outcome of each awaited response; the second component
                      of its result counts executions of the `finally`
                      teardown (`ws.terminate()`);
  * `postSync`      — the `/sync` service boundary validation
                      (src/index.js lines 23-41).

Inbound protocol messages are modelled post-JSON-parse: a `payloadType`
(absent modelled as `none`, the code defaults it to 0) and, for error
messages, a payload carrying optional `description` / `errorCode` fields and
a generic serialization.
-/

namespace CtraderRelay

/-- Payload of a protocol message as far as the error path inspects it:
`msg.payload?.description ?? msg.payload?.errorCode ?? JSON.stringify(msg.payload)`. -/
structure ErrPayload where
  description : Option String
  errorCode : Option String
  serialized : String
deriving Repr, DecidableEq

/-- A parsed inbound protocol message. `payloadType` is `none` when the field
is absent from the JSON (the code then uses 0 via `msg.payloadType ?? 0`). -/
structure Msg where
  payloadType : Option Nat
  payload : Option ErrPayload
deriving Repr, DecidableEq

/-- `Number(msg.payloadType ?? 0)`. -/
def ptOf (m : Msg) : Nat := m.payloadType.getD 0

/-- `msg.payload?.description ?? msg.payload?.errorCode ?? JSON.stringify(msg.payload)` —
when the payload is absent both optional chains yield `undefined` and the
template renders the string "undefined". -/
def errDetail (p : Option ErrPayload) : String :=
  match p with
  | none => "undefined"
  | some q => q.description.getD (q.errorCode.getD q.serialized)

/-- The message of the rejection error built by `waitFor` on payload types 50 / 2142. -/
def ctraderErr (pt : Nat) (m : Msg) : String :=
  "cTrader error (" ++ toString pt ++ "): " ++ errDetail m.payload

/-- Outcome of a pending wait after a sequence of inbound messages. -/
inductive WaitOutcome
  | resolved (m : Msg)
  | rejected (e : String)
  | pending
deriving Repr, DecidableEq

/-- The `waitFor` handler applied to successive inbound messages: the first
message whose payload type equals `wantType` resolves the wait; otherwise the
first message of type 50 or 2142 rejects it; every other message (heartbeats
included) is ignored and the handler stays attached. Resolution and rejection
detach the handler, so no later message is examined. -/
def processMsgs (wantType : Nat) : List Msg → WaitOutcome
  | [] => .pending
  | m :: rest =>
    let pt := ptOf m
    if pt = wantType then .resolved m
    else if pt = 50 ∨ pt = 2142 then .rejected (ctraderErr pt m)
    else processMsgs wantType rest

/-- `buf.readUInt32BE(0)`: the 4-byte big-endian length at the head of the
buffer (only consulted when at least 4 bytes are buffered). -/
def readU32BE (buf : List Nat) : Nat :=
  match buf with
  | b0 :: b1 :: b2 :: b3 :: _ => ((b0 * 256 + b1) * 256 + b2) * 256 + b3
  | _ => 0

/-- The `while (buf.length >= 4)` loop of `createFrameReader`, one `data`
event: reads the big-endian length `len`; discards the whole buffer when
`len` is non-positive or exceeds 2,000,000; waits for more bytes when the
frame is incomplete; otherwise parses the `len`-byte body (`JSON.parse`,
abstracted as `parse`), removes the consumed `4 + len` bytes and repeats.
Returns the decoded messages in order together with the remaining buffer. -/
def decodeLoop (parse : List Nat → Option α) (buf : List Nat) : List α × List Nat :=
  if _h4 : 4 ≤ buf.length then
    let len := readU32BE buf
    if len = 0 ∨ 2000000 < len then ([], [])
    else if _hlt : buf.length < 4 + len then ([], buf)
    else
      match parse ((buf.drop 4).take len) with
      | none => ([], buf)
      | some msg =>
        let r := decodeLoop parse (buf.drop (4 + len))
        (msg :: r.1, r.2)
  else ([], buf)
termination_by buf.length
decreasing_by
  simp only [List.length_drop]
  omega

/-- 4-byte big-endian encoding of a length (as `writeUInt32BE` produces). -/
def u32be (n : Nat) : List Nat :=
  [n / 16777216 % 256, n / 65536 % 256, n / 256 % 256, n % 256]

/-- A wire frame: 4-byte big-endian length followed by the body bytes. -/
def frame (body : List Nat) : List Nat := u32be body.length ++ body

/-- A deal record, as far as the sequencer inspects it: the execution
timestamp drives the pagination cursor and the symbol id feeds the
symbol-detail step (`Number(d.symbolId ?? 0)`, so 0 stands for absent). -/
structure Deal where
  executionTimestamp : Int
  symbolId : Nat
deriving Repr, DecidableEq

/-- `Math.max(...deals.map(d => Number(d.executionTimestamp)))`; only applied
to pages of 500 deals, hence never to the empty list. -/
def maxExec : List Deal → Int
  | [] => 0
  | d :: ds => ds.foldl (fun a x => max a x.executionTimestamp) d.executionTimestamp

/-- `maxRows: 500`. -/
def DEALS_PER_PAGE : Nat := 500

/-- `while (pages < 40)` safety ceiling. -/
def MAX_PAGES : Nat := 40

/-- State of the pagination loop at exit. `deals` is `allDeals`, `pages` the
page counter; `groups` records each appended page (each `allDeals.push(...deals)`
adds one group, in lockstep with `pages++`), and `reqs` the `fromTimestamp`
of each deal-list request, in send order. -/
structure LoopRes where
  deals : List Deal
  pages : Nat
  groups : List (List Deal)
  reqs : List Int
deriving Repr, DecidableEq

/-- The deal pagination loop of `syncAccount`, fuel-indexed by `40 - pages`
(the `while (pages < 40)` guard). Each iteration sends one deal-list request
(`resp i` is the page the i-th request returns, or the error its `waitFor`
raised); an empty page stops the loop, a non-empty page is appended, a page
below the 500 cap stops the loop, otherwise the cursor advances to
`max executionTimestamp + 1` and the loop stops if that reaches `toTimestamp`.
A failed page request is fatal: the error propagates. -/
def dealLoopAux (resp : Nat → Except String (List Deal)) (toTs : Int) :
    Nat → Int → Nat → List Deal → List (List Deal) → List Int → Except String LoopRes
  | 0, _, pages, acc, groups, reqs => .ok ⟨acc, pages, groups, reqs⟩
  | fuel + 1, pageFrom, pages, acc, groups, reqs =>
    match resp reqs.length with
    | .error e => .error e
    | .ok deals =>
      let reqs' := reqs ++ [pageFrom]
      if deals.length = 0 then .ok ⟨acc, pages, groups, reqs'⟩
      else
        let acc' := acc ++ deals
        let groups' := groups ++ [deals]
        let pages' := pages + 1
        if deals.length < DEALS_PER_PAGE then .ok ⟨acc', pages', groups', reqs'⟩
        else
          let next := maxExec deals + 1
          if toTs ≤ next then .ok ⟨acc', pages', groups', reqs'⟩
          else dealLoopAux resp toTs fuel next pages' acc' groups' reqs'

/-- The pagination loop started from `pageFrom = fromTimestamp`, `pages = 0`,
empty accumulator. -/
def dealLoop (resp : Nat → Except String (List Deal)) (fromTs toTs : Int) :
    Except String LoopRes :=
  dealLoopAux resp toTs MAX_PAGES fromTs 0 [] [] []

/-- One entry of the symbol-list response, with the alternate field spellings
the code tolerates (`s.symbolId ?? s.id ?? 0`, `s.symbolName ?? s.name ?? null`). -/
structure SymEntry where
  symbolId : Option Nat
  id : Option Nat
  symbolName : Option String
  name : Option String
deriving Repr, DecidableEq

/-- Association-list update with JS-object semantics: replace the value when
the key exists, append otherwise. -/
def setKey (tbl : List (Nat × α)) (k : Nat) (v : α) : List (Nat × α) :=
  if tbl.any (fun p => p.1 = k) then tbl.map (fun p => if p.1 = k then (k, v) else p)
  else tbl ++ [(k, v)]

/-- Association-list lookup (`symbols[id]`). -/
def lookupKey (tbl : List (Nat × α)) (k : Nat) : Option α :=
  (tbl.find? (fun p => p.1 = k)).map (·.2)

/-- JS falsiness of `symbols[id]`: `undefined` or the empty string. -/
def strFalsy : Option String → Bool
  | none => true
  | some s => s = ""

/-- Symbol-table construction from the symbol-list response:
`if (id && name) symbols[id] = name` — both the id and the name must be
truthy (id non-zero, name present and non-empty). -/
def buildSymbols (l : List SymEntry) : List (Nat × String) :=
  l.foldl (fun syms s =>
    let id := (s.symbolId.orElse fun _ => s.id).getD 0
    match s.symbolName.orElse fun _ => s.name with
    | some nm => if id ≠ 0 ∧ nm ≠ "" then setKey syms id nm else syms
    | none => syms) []

/-- One record of a symbol-detail response (`d.symbolId`, `d.lotSize`,
`d.symbolName ?? d.name`). -/
structure DetailRec where
  symbolId : Option Nat
  lotSize : Option Nat
  symbolName : Option String
  name : Option String
deriving Repr, DecidableEq

/-- The body of the symbol-detail loop applied to one batch response: for each
record, `if (id && lot) lotSizes[id] = lot;` and
`if (id && nm && !symbols[id]) symbols[id] = nm;` — the lot size is recorded
when id and lot are truthy, and the name only fills a gap in the symbol table. -/
def mergeDetails (st : List (Nat × String) × List (Nat × Nat)) (recs : List DetailRec) :
    List (Nat × String) × List (Nat × Nat) :=
  recs.foldl (fun st d =>
    let id := d.symbolId.getD 0
    let lot := d.lotSize.getD 0
    let lots := if id ≠ 0 ∧ lot ≠ 0 then setKey st.2 id lot else st.2
    let syms := match d.symbolName.orElse fun _ => d.name with
      | some nm => if id ≠ 0 ∧ nm ≠ "" ∧ strFalsy (lookupKey st.1 id) then setKey st.1 id nm
                   else st.1
      | none => st.1
    (syms, lots)) st

/-- `Math.ceil(n / 50)`: number of 50-sized chunks of the unique-id list. -/
def numChunks (n : Nat) : Nat := (n + 49) / 50

/-- The chunk loop of the symbol-detail step: chunk `j` yields response
`details j`; a failed chunk aborts the loop (the `try` wraps the whole `for`)
but the tables collected so far are kept — the failure is non-fatal. -/
def detailGo (details : Nat → Except String (List DetailRec)) :
    Nat → Nat → List (Nat × String) × List (Nat × Nat) →
    List (Nat × String) × List (Nat × Nat)
  | 0, _, st => st
  | k + 1, j, st =>
    match details j with
    | .error _ => st
    | .ok recs => detailGo details k (j + 1) (mergeDetails st recs)

/-- `[...new Set(allDeals.map(d => Number(d.symbolId ?? 0)).filter(Boolean))]`. -/
def uniqueIdsOf (deals : List Deal) : List Nat :=
  ((deals.map (·.symbolId)).filter (· ≠ 0)).eraseDups

/-- The symbol-detail / lot-size step: skipped entirely when no deal carries a
symbol id; otherwise one request per 50-sized chunk of the unique ids. -/
def detailStep (details : Nat → Except String (List DetailRec)) (uniqueIds : List Nat)
    (syms : List (Nat × String)) : List (Nat × String) × List (Nat × Nat) :=
  if uniqueIds.length = 0 then (syms, [])
  else detailGo details (numChunks uniqueIds.length) 0 (syms, [])

/-- The assembled sync result
`{ deals: allDeals, symbols, lotSizes, pages, total: allDeals.length }`. -/
structure SyncResult where
  deals : List Deal
  symbols : List (Nat × String)
  lotSizes : List (Nat × Nat)
  pages : Nat
  total : Nat
deriving Repr, DecidableEq

/-- Oracle for the awaited outcomes of one sync attempt: connection
establishment, the two auth responses, the symbol-list response (already
projected to its entry list), the deal page for each deal-list request, and
the detail records for each 50-sized chunk request. An `.error` is the
message of the exception the corresponding `await` raised (timeout or
remote error-type message). -/
structure Env where
  connect : Except String Unit
  appAuth : Except String Msg
  acctAuth : Except String Msg
  symList : Except String (List SymEntry)
  dealResp : Nat → Except String (List Deal)
  details : Nat → Except String (List DetailRec)

/-- The body of `syncAccount` (inside the `try`): app auth and account auth
are fatal; the symbol-list step is wrapped in its own try/catch and a failure
leaves the symbol table empty; the deal pagination is fatal; the detail step
is non-fatal. -/
def syncBody (env : Env) (fromTs toTs : Int) : Except String SyncResult :=
  match env.appAuth with
  | .error e => .error e
  | .ok _ =>
    match env.acctAuth with
    | .error e => .error e
    | .ok _ =>
      let symbols0 := match env.symList with
        | .ok l => buildSymbols l
        | .error _ => []
      match dealLoop env.dealResp fromTs toTs with
      | .error e => .error e
      | .ok lr =>
        let st := detailStep env.details (uniqueIdsOf lr.deals) symbols0
        .ok ⟨lr.deals, st.1, st.2, lr.pages, lr.deals.length⟩

/-- `syncAccount`: acquire the connection, run the body, and tear the
connection down in the `finally`. The second component counts executions of
`ws.terminate()`: 0 when the connection was never acquired (`connectWS`
rejected before the `try` is entered), and exactly 1 on every path through
the `try`/`finally`, whether the body succeeded or raised. -/
def syncAccount (env : Env) (fromTs toTs : Int) : Except String SyncResult × Nat :=
  match env.connect with
  | .error e => (.error e, 0)
  | .ok _ => (syncBody env fromTs toTs, 1)

/-- A JSON value of a request-body field, as far as the validation inspects
it: `undefined`, `null`, a string, a number, or anything else. -/
inductive JVal
  | undefined
  | jnull
  | str (s : String)
  | num (n : Int)
  | other
deriving Repr, DecidableEq

/-- The `/sync` request body with its seven required fields. -/
structure ReqBody where
  host : JVal
  clientId : JVal
  clientSecret : JVal
  accessToken : JVal
  ctidAccountId : JVal
  fromTimestamp : JVal
  toTimestamp : JVal
deriving Repr, DecidableEq

/-- `req.body[k] === undefined || req.body[k] === null || req.body[k] === ''`. -/
def isMissing : JVal → Bool
  | .undefined => true
  | .jnull => true
  | .str s => s = ""
  | _ => false

/-- The ordered list of required field names. -/
def requiredFields : List String :=
  ["host", "clientId", "clientSecret", "accessToken", "ctidAccountId",
   "fromTimestamp", "toTimestamp"]

/-- Field access `req.body[k]` for the seven required keys. -/
def getField (b : ReqBody) : String → JVal := fun k =>
  if k = "host" then b.host
  else if k = "clientId" then b.clientId
  else if k = "clientSecret" then b.clientSecret
  else if k = "accessToken" then b.accessToken
  else if k = "ctidAccountId" then b.ctidAccountId
  else if k = "fromTimestamp" then b.fromTimestamp
  else if k = "toTimestamp" then b.toTimestamp
  else .undefined

/-- `['host',...].filter(k => req.body[k] === undefined || ... )`. -/
def missingFields (b : ReqBody) : List String :=
  requiredFields.filter (fun k => isMissing (getField b k))

/-- The JSON response of the `/sync` route. -/
inductive HttpResp
  | jsonOk (r : SyncResult)
  | jsonErr (e : String)
deriving Repr, DecidableEq

/-- The `/sync` route handler: validate the seven required fields, failing
fast with the exact missing names when any is absent/null/empty; otherwise
invoke `syncAccount` and map its outcome to `{ok:true,...}` / `{ok:false,error}`.
The boolean records whether `syncAccount` was invoked (hence whether a
connection was attempted). -/
def postSync (env : Env) (b : ReqBody) (fromTs toTs : Int) : HttpResp × Bool :=
  let missing := missingFields b
  if missing.length ≠ 0 then
    (.jsonErr ("Missing: " ++ String.intercalate ", " missing), false)
  else
    match (syncAccount env fromTs toTs).1 with
    | .ok r => (.jsonOk r, true)
    | .error e => (.jsonErr e, true)

/-! Concrete sample data used to instantiate the theorems below. -/

/-- A heartbeat message (payload type 51). -/
def hbMsg : Msg := ⟨some 51, none⟩

/-- An unrelated response message (payload type 2103). -/
def otherMsg : Msg := ⟨some 2103, none⟩

/-- An app-auth response message (payload type 2101). -/
def okMsg : Msg := ⟨some 2101, none⟩

/-- A remote error message of type 2142 carrying a description. -/
def errMsg : Msg := ⟨some 2142, some ⟨some "NOT_AUTH", none, "payload"⟩⟩

/-- A deal with execution timestamp 1000 on symbol 7. -/
def dealA : Deal := ⟨1000, 7⟩

/-- A deal with execution timestamp 1005 on symbol 7. -/
def dealB : Deal := ⟨1005, 7⟩

/-- A full page: 500 deals, maximum execution timestamp 1000. -/
def pageOf500 : List Deal := List.replicate 500 dealA

/-- A page of 120 deals, below the 500 cap. -/
def pageOf120 : List Deal := List.replicate 120 dealB

/-- Page oracle: the first request returns a full page, the second a page of 120. -/
def respC1 : Nat → Except String (List Deal) :=
  fun i => if i = 0 then .ok pageOf500 else .ok pageOf120

/-- Page oracle that returns a full page of 500 deals to every request. -/
def respFull : Nat → Except String (List Deal) := fun _ => .ok pageOf500

/-- A sample environment: connection and both auths succeed, the symbol-list
step times out, every deal page is empty, every detail chunk is empty. -/
def envW : Env :=
  ⟨.ok (), .ok okMsg, .ok otherMsg, .error "Timeout waiting for payloadType 2120",
   fun _ => .ok [], fun _ => .ok []⟩

/-- A request body whose `accessToken` is null and whose other fields are set. -/
def bodyMissing : ReqBody :=
  ⟨.str "demo.ctraderapi.com", .str "cid", .str "sec", .jnull, .num 123, .num 0, .num 100⟩

/-- Detail oracle for the backfill example: one batch with records for
symbols 7 (name EURUSD_X, lot size 100000) and 9 (name GBPUSD, lot size 100000). -/
def detailsW : Nat → Except String (List DetailRec) :=
  fun j =>
    if j = 0 then
      .ok [⟨some 7, some 100000, none, some "EURUSD_X"⟩,
           ⟨some 9, some 100000, none, some "GBPUSD"⟩]
    else .error "no response"

/-- A parser recognising the single body `[65]`. -/
def parseW : List Nat → Option Nat := fun b => if b = [65] then some 65 else none

/-!
The TCP variant (src/unnamed/part_000) differs from the WebSocket variant
embedded above in its symbol-list step: there the wait
`await waitFor(reader, 2120, 15000)` (line 141) sits in a `try` that has
only a `finally` — no `catch` — so a symbol-list failure propagates out of
`syncAccount` and the whole sync fails. It also builds the symbol table
without fallback spellings (`symbols[String(s.symbolId)] = s.symbolName`)
and has no symbol-detail / lot-size step.
-/

/-- One entry of the symbol-list response as the TCP variant reads it:
`symbols[String(s.symbolId)] = s.symbolName`, no alternate field spellings,
no truthiness checks. -/
structure SymEntryTcp where
  symbolId : Nat
  symbolName : String
deriving Repr, DecidableEq

/-- Symbol-table construction of the TCP variant (part_000 lines 142-145). -/
def buildSymbolsTcp (l : List SymEntryTcp) : List (Nat × String) :=
  l.foldl (fun syms s => setKey syms s.symbolId s.symbolName) []

/-- The sync result of the TCP variant:
`{ deals: allDeals, symbols, pages, total: allDeals.length }` (no lot sizes). -/
structure SyncResultTcp where
  deals : List Deal
  symbols : List (Nat × String)
  pages : Nat
  total : Nat
deriving Repr, DecidableEq

/-- Oracle for the awaited outcomes of one sync attempt of the TCP variant;
there is no detail-chunk oracle because that variant has no detail step. -/
structure EnvTcp where
  connect : Except String Unit
  appAuth : Except String Msg
  acctAuth : Except String Msg
  symList : Except String (List SymEntryTcp)
  dealResp : Nat → Except String (List Deal)

/-- The body of the TCP variant's `syncAccount` (part_000 lines 127-174):
app auth, account auth and — unlike src/index.js — the symbol-list step are
all fatal (there is no `catch` around the symbol-list wait), then the same
deal pagination loop. -/
def syncBodyTcp (env : EnvTcp) (fromTs toTs : Int) : Except String SyncResultTcp :=
  match env.appAuth with
  | .error e => .error e
  | .ok _ =>
    match env.acctAuth with
    | .error e => .error e
    | .ok _ =>
      match env.symList with
      | .error e => .error e
      | .ok l =>
        let symbols := buildSymbolsTcp l
        match dealLoop env.dealResp fromTs toTs with
        | .error e => .error e
        | .ok lr => .ok ⟨lr.deals, symbols, lr.pages, lr.deals.length⟩

/-- The TCP variant's `syncAccount` with its `try`/`finally` teardown
(`sock.destroy()`), counted as in `syncAccount`. -/
def syncAccountTcp (env : EnvTcp) (fromTs toTs : Int) :
    Except String SyncResultTcp × Nat :=
  match env.connect with
  | .error e => (.error e, 0)
  | .ok _ => (syncBodyTcp env fromTs toTs, 1)

/-- A sample TCP-variant environment: connection and both auths succeed, the
symbol-list step times out, every deal page is available and empty. -/
def envTcpW : EnvTcp :=
  ⟨.ok (), .ok okMsg, .ok otherMsg, .error "Timeout waiting for payloadType 2120",
   fun _ => .ok []⟩

/-! Helper lemmas. -/

/-- Unfolding of one iteration of the pagination loop. -/
theorem dealLoopAux_succ (resp : Nat → Except String (List Deal)) (toTs : Int)
    (fuel : Nat) (pageFrom : Int) (pages : Nat) (acc : List Deal)
    (groups : List (List Deal)) (reqs : List Int) :
    dealLoopAux resp toTs (fuel + 1) pageFrom pages acc groups reqs =
      match resp reqs.length with
      | .error e => .error e
      | .ok deals =>
        if deals.length = 0 then .ok ⟨acc, pages, groups, reqs ++ [pageFrom]⟩
        else if deals.length < DEALS_PER_PAGE then
          .ok ⟨acc ++ deals, pages + 1, groups ++ [deals], reqs ++ [pageFrom]⟩
        else if toTs ≤ maxExec deals + 1 then
          .ok ⟨acc ++ deals, pages + 1, groups ++ [deals], reqs ++ [pageFrom]⟩
        else
          dealLoopAux resp toTs fuel (maxExec deals + 1) (pages + 1) (acc ++ deals)
            (groups ++ [deals]) (reqs ++ [pageFrom]) := rfl

/-- The pagination loop sends at most `fuel` further requests. -/
theorem dealLoopAux_reqs_le (resp : Nat → Except String (List Deal)) (toTs : Int) :
    ∀ (fuel : Nat) (pageFrom : Int) (pages : Nat) (acc : List Deal)
      (groups : List (List Deal)) (reqs : List Int) (lr : LoopRes),
      dealLoopAux resp toTs fuel pageFrom pages acc groups reqs = .ok lr →
      lr.reqs.length ≤ reqs.length + fuel := by
  intro fuel
  induction fuel with
  | zero =>
    intro pf pages acc groups reqs lr h
    cases h
    simp
  | succ n ih =>
    intro pf pages acc groups reqs lr h
    rw [dealLoopAux_succ] at h
    cases hr : resp reqs.length with
    | error e => rw [hr] at h; exact absurd h (by simp)
    | ok deals =>
      rw [hr] at h
      dsimp only at h
      split_ifs at h with h0 h1 h2
      · cases h; simp
      · cases h; simp
      · cases h; simp
      · have := ih _ _ _ _ _ _ h
        simp at this ⊢
        omega

/-- When every page request succeeds, the pagination loop returns a result. -/
theorem dealLoopAux_ok (resp : Nat → Except String (List Deal)) (toTs : Int)
    (hall : ∀ i, ∃ p, resp i = .ok p) :
    ∀ (fuel : Nat) (pageFrom : Int) (pages : Nat) (acc : List Deal)
      (groups : List (List Deal)) (reqs : List Int),
      ∃ lr, dealLoopAux resp toTs fuel pageFrom pages acc groups reqs = .ok lr := by
  intro fuel
  induction fuel with
  | zero => intro pf pages acc groups reqs; exact ⟨_, rfl⟩
  | succ n ih =>
    intro pf pages acc groups reqs
    obtain ⟨p, hp⟩ := hall reqs.length
    rw [dealLoopAux_succ, hp]
    dsimp only
    split_ifs with h0 h1 h2
    · exact ⟨_, rfl⟩
    · exact ⟨_, rfl⟩
    · exact ⟨_, rfl⟩
    · exact ih _ _ _ _ _

/-- Loop invariant: the accumulated deals are the concatenation of the
appended pages, the page counter counts them, and every appended page is
non-empty. -/
theorem dealLoopAux_groups (resp : Nat → Except String (List Deal)) (toTs : Int) :
    ∀ (fuel : Nat) (pageFrom : Int) (pages : Nat) (acc : List Deal)
      (groups : List (List Deal)) (reqs : List Int) (lr : LoopRes),
      dealLoopAux resp toTs fuel pageFrom pages acc groups reqs = .ok lr →
      acc = groups.flatten → pages = groups.length → (∀ g ∈ groups, g ≠ []) →
      lr.deals = lr.groups.flatten ∧ lr.pages = lr.groups.length ∧
        ∀ g ∈ lr.groups, g ≠ [] := by
  intro fuel
  induction fuel with
  | zero =>
    intro pf pages acc groups reqs lr h hacc hpages hne
    cases h
    exact ⟨hacc, hpages, hne⟩
  | succ n ih =>
    intro pf pages acc groups reqs lr h hacc hpages hne
    rw [dealLoopAux_succ] at h
    cases hr : resp reqs.length with
    | error e => rw [hr] at h; exact absurd h (by simp)
    | ok deals =>
      rw [hr] at h
      have hstep : acc ++ deals = (groups ++ [deals]).flatten ∧
          pages + 1 = (groups ++ [deals]).length ∧
          (deals.length ≠ 0 → ∀ g ∈ groups ++ [deals], g ≠ []) := by
        refine ⟨by simp [hacc], by simp [hpages], ?_⟩
        intro hd g hg
        rcases List.mem_append.1 hg with hg | hg
        · exact hne g hg
        · simp at hg
          subst hg
          simpa [← List.length_eq_zero] using hd
      dsimp only at h
      split_ifs at h with h0 h1 h2
      · cases h; exact ⟨hacc, hpages, hne⟩
      · cases h; exact ⟨hstep.1, hstep.2.1, hstep.2.2 h0⟩
      · cases h; exact ⟨hstep.1, hstep.2.1, hstep.2.2 h0⟩
      · exact ih _ _ _ _ _ _ h hstep.1 hstep.2.1 (hstep.2.2 h0)

/-- The maximum execution timestamp over a constant page is that deal's. -/
theorem maxExec_replicate (n : Nat) (d : Deal) :
    maxExec (List.replicate (n + 1) d) = d.executionTimestamp := by
  rw [List.replicate_succ]
  show (List.replicate n d).foldl (fun a x => max a x.executionTimestamp)
    d.executionTimestamp = d.executionTimestamp
  induction n with
  | zero => rfl
  | succ m ihm => rw [List.replicate_succ, List.foldl_cons, max_self]; exact ihm

/-- Reading the big-endian length of a well-formed frame recovers the body length. -/
theorem readU32BE_frame (body rest : List Nat) (h : body.length < 4294967296) :
    readU32BE (frame body ++ rest) = body.length := by
  simp only [frame, u32be, List.cons_append, List.nil_append, readU32BE]
  omega

/-! Claim theorems. -/

/-- C3: with a wait pending for payload type `A` (not the heartbeat type 51),
an inbound heartbeat followed by an inbound message of an unrelated,
non-error type leave the wait untouched, and the next message of type `A`
resolves it with that message. -/
theorem waitFor_ordering (A : Nat) (hb b m : Msg)
    (hhb : ptOf hb = 51) (hA : A ≠ 51) (hm : ptOf m = A)
    (hb1 : ptOf b ≠ A) (hb2 : ptOf b ≠ 50) (hb3 : ptOf b ≠ 2142) :
    processMsgs A [hb, b, m] = .resolved m ∧
    processMsgs A [hb, b, m] = processMsgs A [m] := by
  have h51 : (51 : Nat) ≠ A := Ne.symm hA
  constructor <;> simp [processMsgs, hhb, hm, hb1, hb2, hb3, h51]

/-- C3 witness: a wait for 2101, fed heartbeat then a 2103 message then the
2101 message, resolves with the 2101 message. -/
theorem waitFor_ordering_witness :
    processMsgs 2101 [hbMsg, otherMsg, okMsg] = .resolved okMsg :=
  (waitFor_ordering 2101 hbMsg otherMsg okMsg rfl (by decide) rfl
    (by decide) (by decide) (by decide)).1

/-- C4: if a message of the designated error type (50 or 2142) arrives before
any message of the wanted type, the wait rejects with the remote description,
or the error code when no description is present, or a generic serialization
of the payload (`errDetail`); the handler is detached at that point, so the
outcome is the same whatever arrives afterwards — in particular a later
message of the wanted type does not resolve the wait. -/
theorem waitFor_error_precedence (want : Nat) (pre post : List Msg) (e : Msg)
    (hpre : ∀ x ∈ pre, ptOf x ≠ want ∧ ptOf x ≠ 50 ∧ ptOf x ≠ 2142)
    (he : ptOf e = 50 ∨ ptOf e = 2142) (hne : ptOf e ≠ want) :
    processMsgs want (pre ++ e :: post) = .rejected (ctraderErr (ptOf e) e) := by
  induction pre with
  | nil => simp [processMsgs, hne, he]
  | cons x xs ih =>
    obtain ⟨h1, h2, h3⟩ := hpre x (by simp)
    have ih2 := ih (fun y hy => hpre y (by simp [hy]))
    simpa [processMsgs, h1, h2, h3] using ih2

/-- C4 witness: a wait for 2101, fed heartbeat then a 2142 error carrying
description NOT_AUTH then a matching 2101 message, rejects with the remote
description and ignores the later match. -/
theorem waitFor_error_precedence_witness :
    processMsgs 2101 [hbMsg, errMsg, okMsg] =
      .rejected "cTrader error (2142): NOT_AUTH" := by
  have h := waitFor_error_precedence 2101 [hbMsg] [okMsg] errMsg
    (by decide) (by decide) (by decide)
  rw [show ([hbMsg] ++ errMsg :: [okMsg]) = [hbMsg, errMsg, okMsg] from rfl] at h
  rw [h]
  decide

/-- C8: the `/sync` boundary rejects a request with a missing/null/empty
required field with an error listing exactly the missing field names and
does not invoke the sequencer; with all seven fields present and non-empty
it invokes `syncAccount`. The last conjunct characterises the reported
names: exactly the required fields whose value is absent, null or empty. -/
theorem sync_boundary_validation (env : Env) (b : ReqBody) (fromTs toTs : Int) :
    (missingFields b ≠ [] →
      postSync env b fromTs toTs =
        (.jsonErr ("Missing: " ++ String.intercalate ", " (missingFields b)), false)) ∧
    (missingFields b = [] → (postSync env b fromTs toTs).2 = true) ∧
    (∀ k, k ∈ missingFields b ↔ k ∈ requiredFields ∧ isMissing (getField b k) = true) := by
  refine ⟨?_, ?_, ?_⟩
  · intro h
    have hlen : (missingFields b).length ≠ 0 := by
      simpa [List.length_eq_zero] using h
    simp [postSync, hlen]
  · intro h
    cases hr : (syncAccount env fromTs toTs).1 <;>
      simp [postSync, h, hr]
  · intro k
    simp [missingFields, List.mem_filter]

/-- C8 witness: a body whose `accessToken` is null is rejected with the
message naming exactly that field. -/
theorem sync_boundary_validation_witness :
    postSync envW bodyMissing 0 100 = (.jsonErr "Missing: accessToken", false) := by
  have h := (sync_boundary_validation envW bodyMissing 0 100).1 (by decide)
  rw [h]
  decide

/-- C9: every execution of `syncAccount` that acquires a connection runs the
`finally` teardown exactly once before its result is produced, whatever the
body did (success, fatal step failure, timeout error, or the pagination
ceiling — all are values of `syncBody`). -/
theorem connection_closed_once (env : Env) (fromTs toTs : Int)
    (hc : env.connect = .ok ()) :
    (syncAccount env fromTs toTs).2 = 1 := by
  simp [syncAccount, hc]

/-- C9 witness: the sample environment closes its connection exactly once. -/
theorem connection_closed_once_witness : (syncAccount envW 0 100).2 = 1 :=
  connection_closed_once envW 0 100 rfl

/-- C6 counterexample: the claim does not hold for the TCP variant
(src/unnamed/part_000) it cites. There, with the connection and both auths
succeeding and every deal page available, a symbol-list timeout makes the
whole sync fail — the symbol-list wait has no `catch`, so its failure is
fatal, not non-fatal as claimed. -/
theorem symbol_list_fatal_tcp :
    (syncAccountTcp envTcpW 0 100).1 =
      .error "Timeout waiting for payloadType 2120" := rfl

/-- C6 as amended: in the WebSocket variant of src/index.js (whose
symbol-list step is wrapped in its own try/catch), when both auth steps
succeed, the symbol-list step fails (timeout or remote error) and every deal
page request succeeds, the sync still returns a successful result — there
the failure is non-fatal, and the symbol table may remain partially or fully
empty. In the TCP variant of src/unnamed/part_000 the failure is instead
fatal (see the counterexample above). -/
theorem symbol_list_nonfatal (env : Env) (fromTs toTs : Int) (m1 m2 : Msg) (e : String)
    (hc : env.connect = .ok ()) (ha : env.appAuth = .ok m1)
    (hb : env.acctAuth = .ok m2) (hs : env.symList = .error e)
    (hd : ∀ i, ∃ p, env.dealResp i = .ok p) :
    ∃ r, (syncAccount env fromTs toTs).1 = .ok r := by
  obtain ⟨lr, hlr⟩ := dealLoopAux_ok env.dealResp toTs hd 40 fromTs 0 [] [] []
  have hdl : dealLoop env.dealResp fromTs toTs = .ok lr := hlr
  refine ⟨⟨lr.deals, (detailStep env.details (uniqueIdsOf lr.deals) []).1,
    (detailStep env.details (uniqueIdsOf lr.deals) []).2, lr.pages, lr.deals.length⟩, ?_⟩
  simp [syncAccount, syncBody, hc, ha, hb, hs, hdl]

/-- C6 witness: in the sample environment the symbol list times out yet the
sync succeeds. -/
theorem symbol_list_nonfatal_witness : ∃ r, (syncAccount envW 0 100).1 = .ok r :=
  symbol_list_nonfatal envW 0 100 okMsg otherMsg
    "Timeout waiting for payloadType 2120" rfl rfl rfl rfl (fun _ => ⟨[], rfl⟩)

/-- C7: starting from a symbol table already mapping 7 to EURUSD, the
symbol-detail step applied to a batch returning records
(7, name EURUSD_X, lot 100000) and (9, name GBPUSD, lot 100000) yields the
symbol table mapping 7 to EURUSD (not overwritten) and 9 to GBPUSD, and the
lot-size table mapping 7 and 9 to 100000. -/
theorem symbol_detail_backfill :
    detailStep detailsW [7, 9] [(7, "EURUSD")] =
      ([(7, "EURUSD"), (9, "GBPUSD")], [(7, 100000), (9, 100000)]) := by
  decide

/-- C2: if every page request succeeds and returns exactly the cap-sized
count of 500 deals, the pagination loop still terminates with at most 40
requests sent, whether or not the cursor ever reaches `toTimestamp`. -/
theorem pagination_ceiling (resp : Nat → Except String (List Deal))
    (fromTs toTs : Int)
    (hall : ∀ i, ∃ p, resp i = .ok p ∧ p.length = 500) :
    ∃ lr, dealLoop resp fromTs toTs = .ok lr ∧ lr.reqs.length ≤ 40 := by
  obtain ⟨lr, hlr⟩ :=
    dealLoopAux_ok resp toTs (fun i => (hall i).imp fun p h => h.1) 40 fromTs 0 [] [] []
  refine ⟨lr, hlr, ?_⟩
  simpa using dealLoopAux_reqs_le resp toTs 40 fromTs 0 [] [] [] lr hlr

/-- C2 witness: an oracle answering every request with a full page of 500
deals drives the loop to completion within 40 requests. -/
theorem pagination_ceiling_witness :
    ∃ lr, dealLoop respFull 0 1000000 = .ok lr ∧ lr.reqs.length ≤ 40 :=
  pagination_ceiling respFull 0 1000000
    (fun _ => ⟨pageOf500, rfl, by rw [pageOf500]; exact List.length_replicate 500 dealA⟩)

/-- One step of the frame decode loop on a well-formed buffered frame: the
body is extracted and parsed, the consumed `4 + L` bytes are removed, and
decoding continues on the remainder. -/
theorem decodeLoop_step (parse : List Nat → Option α) (body rest : List Nat)
    (hpos : 0 < body.length) (hle : body.length ≤ 2000000) :
    decodeLoop parse (frame body ++ rest) =
      match parse body with
      | none => ([], frame body ++ rest)
      | some msg => (msg :: (decodeLoop parse rest).1, (decodeLoop parse rest).2) := by
  have hL : (frame body ++ rest).length = 4 + body.length + rest.length := by
    simp [frame, u32be]
    omega
  have hlen : readU32BE (frame body ++ rest) = body.length :=
    readU32BE_frame body rest (by omega)
  have hdt : ((frame body ++ rest).drop 4).take body.length = body := by
    rw [show frame body ++ rest = u32be body.length ++ (body ++ rest) by
      simp [frame]]
    rw [List.drop_left' (show (u32be body.length).length = 4 from rfl)]
    exact List.take_left' rfl
  have hdrop : (frame body ++ rest).drop (4 + body.length) = rest := by
    rw [show frame body ++ rest = (u32be body.length ++ body) ++ rest by
      simp [frame]]
    exact List.drop_left' (by simp [u32be]; omega)
  rw [decodeLoop]
  rw [dif_pos (by omega)]
  simp only [hlen, hdt, hdrop]
  rw [if_neg (by omega), dif_neg (by omega)]

/-- C5: feeding the frame reader any buffer made of complete well-formed
frames (each with positive body length at most 2,000,000 and a parseable
body) followed by a partial tail of fewer than 4 bytes decodes exactly the
frames' messages, in order, and leaves exactly the tail buffered — one data
read yields zero, one, or many complete messages, each frame's `4 + L`
consumed bytes being removed as it is decoded. -/
theorem frame_decoding (parse : List Nat → Option α) (msgOf : List Nat → α)
    (bs : List (List Nat)) (r : List Nat)
    (hb : ∀ b ∈ bs, 0 < b.length ∧ b.length ≤ 2000000 ∧ parse b = some (msgOf b))
    (hr : r.length < 4) :
    decodeLoop parse ((bs.map frame).flatten ++ r) = (bs.map msgOf, r) := by
  induction bs with
  | nil =>
    rw [decodeLoop]
    simp only [List.map_nil, List.flatten_nil, List.nil_append]
    rw [dif_neg (by omega)]
  | cons b bs ih =>
    obtain ⟨hpos, hle, hparse⟩ := hb b (by simp)
    have hrest := ih (fun x hx => hb x (by simp [hx]))
    have hbuf : (((b :: bs).map frame).flatten ++ r) =
        frame b ++ ((bs.map frame).flatten ++ r) := by
      simp
    rw [hbuf, decodeLoop_step parse b _ hpos hle, hparse]
    simp [hrest]

/-- C5 witness: a buffer holding one frame with body byte 65 decodes to that
single message with an empty remainder. -/
theorem frame_decoding_witness :
    decodeLoop parseW (([[65]].map frame).flatten ++ []) = ([65], []) :=
  frame_decoding parseW (fun _ => 65) [[65]] [] (by decide) (by decide)

/-- C1: if the first deal page holds 500 deals with maximum execution
timestamp 1000 and the second page holds 120 deals (with `toTimestamp`
beyond the advanced cursor, as the arrival of a second page presupposes),
the loop sends exactly 2 requests, the second with `fromTimestamp = 1001`,
and stops after the second page because 120 is below the 500 cap. -/
theorem pagination_two_pages (resp : Nat → Except String (List Deal))
    (fromTs toTs : Int) (p1 p2 : List Deal)
    (h0 : resp 0 = .ok p1) (h1 : resp 1 = .ok p2)
    (hl1 : p1.length = 500) (hm1 : maxExec p1 = 1000)
    (hl2 : p2.length = 120) (ht : 1001 < toTs) :
    dealLoop resp fromTs toTs = .ok ⟨p1 ++ p2, 2, [p1, p2], [fromTs, 1001]⟩ := by
  rw [dealLoop, show MAX_PAGES = 39 + 1 from rfl, dealLoopAux_succ]
  simp only [List.length_nil, h0]
  rw [hl1, hm1]
  rw [if_neg (by omega), if_neg (by simp [DEALS_PER_PAGE]),
    if_neg (by omega)]
  rw [show (39 : Nat) = 38 + 1 from rfl, dealLoopAux_succ]
  simp only [List.nil_append, List.length_cons, List.length_nil, h1]
  rw [hl2]
  rw [if_neg (by omega), if_pos (by simp [DEALS_PER_PAGE])]
  norm_num

/-- C1 witness: a concrete oracle returning a full page with maximum
timestamp 1000 and then a page of 120 deals yields exactly the two requests
`[0, 1001]` and two pages. -/
theorem pagination_two_pages_witness :
    dealLoop respC1 0 2000 = .ok ⟨pageOf500 ++ pageOf120, 2,
      [pageOf500, pageOf120], [0, 1001]⟩ :=
  pagination_two_pages respC1 0 2000 pageOf500 pageOf120 rfl rfl
    (by rw [pageOf500]; exact List.length_replicate 500 dealA)
    (by rw [pageOf500, show (500 : Nat) = 499 + 1 from rfl]
        exact maxExec_replicate 499 dealA)
    (by rw [pageOf120]; exact List.length_replicate 120 dealB)
    (by omega)

/-- C10: in every sync result, `total` equals the length of `deals`; the
page counter counts exactly the non-empty pages appended (the accumulated
deals are their concatenation and every appended page is non-empty); and
when the very first page is empty the sync still succeeds with no deals,
zero pages and zero total. -/
theorem sync_result_counts :
    (∀ (env : Env) (fromTs toTs : Int) (r : SyncResult),
        (syncAccount env fromTs toTs).1 = .ok r → r.total = r.deals.length) ∧
    (∀ (resp : Nat → Except String (List Deal)) (fromTs toTs : Int) (lr : LoopRes),
        dealLoop resp fromTs toTs = .ok lr →
        lr.deals = lr.groups.flatten ∧ lr.pages = lr.groups.length ∧
          ∀ g ∈ lr.groups, g ≠ []) ∧
    (∀ (env : Env) (fromTs toTs : Int),
        env.connect = .ok () → (∃ m, env.appAuth = .ok m) →
        (∃ m, env.acctAuth = .ok m) → env.dealResp 0 = .ok [] →
        ∃ r, (syncAccount env fromTs toTs).1 = .ok r ∧
          r.deals = [] ∧ r.pages = 0 ∧ r.total = 0) := by
  refine ⟨?_, ?_, ?_⟩
  · intro env fromTs toTs r h
    rw [syncAccount] at h
    cases hc : env.connect with
    | error e => rw [hc] at h; exact absurd h (by simp)
    | ok u =>
      rw [hc] at h
      dsimp only at h
      rw [syncBody] at h
      cases ha : env.appAuth with
      | error e => rw [ha] at h; exact absurd h (by simp)
      | ok m1 =>
        rw [ha] at h
        dsimp only at h
        cases hb : env.acctAuth with
        | error e => rw [hb] at h; exact absurd h (by simp)
        | ok m2 =>
          rw [hb] at h
          dsimp only at h
          cases hd : dealLoop env.dealResp fromTs toTs with
          | error e => rw [hd] at h; exact absurd h (by simp)
          | ok lr =>
            rw [hd] at h
            dsimp only at h
            cases h
            rfl
  · intro resp fromTs toTs lr h
    exact dealLoopAux_groups resp toTs 40 fromTs 0 [] [] [] lr h rfl rfl (by simp)
  · intro env fromTs toTs hc happ hacct hd0
    obtain ⟨m1, ha⟩ := happ
    obtain ⟨m2, hb⟩ := hacct
    have hdl : dealLoop env.dealResp fromTs toTs = .ok ⟨[], 0, [], [fromTs]⟩ := by
      rw [dealLoop, show MAX_PAGES = 39 + 1 from rfl, dealLoopAux_succ]
      simp only [List.length_nil, hd0]
      simp
    refine ⟨⟨[], (detailStep env.details (uniqueIdsOf []) (match env.symList with
        | .ok l => buildSymbols l | .error _ => [])).1,
      (detailStep env.details (uniqueIdsOf []) (match env.symList with
        | .ok l => buildSymbols l | .error _ => [])).2, 0, 0⟩, ?_, rfl, rfl, rfl⟩
    simp [syncAccount, syncBody, hc, ha, hb, hdl]

/-- C10 witness: in the sample environment (whose first deal page is empty)
the sync succeeds with no deals, zero pages and zero total. -/
theorem sync_result_counts_witness :
    ∃ r, (syncAccount envW 0 100).1 = .ok r ∧
      r.deals = [] ∧ r.pages = 0 ∧ r.total = 0 :=
  sync_result_counts.2.2 envW 0 100 rfl ⟨okMsg, rfl⟩ ⟨otherMsg, rfl⟩ rfl

end CtraderRelay
